import Mathlib

/-!
Verification of the Apple-Health-Data-Analyzer repository
(`scripts/step_corrector.py`, `scripts/health_analyzer.py`,
`scripts/gpx_analyzer.py`) against its natural-language specification.

Shallow embedding conventions used throughout this file:
* Python `datetime` values are modelled by the structure `Timestamp`:
  the field `aware` is the absolute (timezone-aware) instant used by
  interval comparisons, the field `naive` is the value obtained by
  `replace(tzinfo=None)` used by the cutoff comparisons.  Both are
  integers (seconds on an abstract linear time scale).
* Python floats are modelled by `ℚ`; Python ints by `Int`.
* Library parsing functions (`datetime.strptime`,
  `datetime.fromisoformat`, `float(...)`, `int(...)`) are modelled as
  oracle parameters of type `String → Option _` — `none` models a
  raised `ValueError`/`TypeError` that the source catches.
* Python truthiness of an optional string attribute (`if value:`) is
  `value` being present and non-empty.
* File-system and XML I/O is modelled by passing the parsed element
  stream (`List RawRecord`), the directory listing (`List String`) or a
  per-file analysis oracle explicitly.
-/

/-- Python substring containment on character lists:
`containsSub pat l` is `pat in l`. -/
def containsSub (pat : List Char) : List Char → Bool
  | [] => pat.isEmpty
  | c :: t => if pat.isPrefixOf (c :: t) then true else containsSub pat t

/-- Python's `pat in s` on strings. -/
def pyIn (pat s : String) : Bool :=
  containsSub pat.data s.data

/-- Python truthiness of an optional string (`None` and `""` are falsy). -/
def pyTruthy : Option String → Bool
  | none => false
  | some s => decide (s ≠ "")

/-- Splitting a character list at a separator character: the
behaviour of Python `str.split(sep)` for a one-character separator
(the result always has at least one, possibly empty, token). -/
def splitOnChar (sep : Char) : List Char → List (List Char)
  | [] => [[]]
  | c :: t =>
    if c = sep then [] :: splitOnChar sep t
    else
      match splitOnChar sep t with
      | [] => [[c]]
      | g :: gs => (c :: g) :: gs

/-- Python `s.split(sep)` for a one-character separator. -/
def pySplit (sep : Char) (s : String) : List String :=
  (splitOnChar sep s.data).map (fun cs => String.mk cs)

/-- Python `s.endswith(suf)`. -/
def pyEndsWith (suf s : String) : Bool :=
  suf.data.isSuffixOf s.data

/-- Python `s.split(' ')[0]` (a split always yields at least one token). -/
def firstToken (s : String) : String :=
  (pySplit ' ' s).headD ""

/-- Python list slice `l[-n:]`. -/
def lastN {α : Type} (n : Nat) (l : List α) : List α :=
  l.drop (l.length - n)

/-- `updateAssoc f d l k` updates the entry of key `k` in an
insertion-ordered association list by `f`, inserting `f d` at the end
when the key is absent — the behaviour of a Python
`defaultdict`/`Counter` update `m[k] = f(m.get(k, d))`. -/
def updateAssoc {β : Type} (f : β → β) (d : β) : List (String × β) → String → List (String × β)
  | [], k => [(k, f d)]
  | (k0, v) :: rest, k =>
    if k0 = k then (k0, f v) :: rest else (k0, v) :: updateAssoc f d rest k

/-- Insert a string into a sorted list (helper for Python `list.sort()`). -/
def insertSorted (x : String) : List String → List String
  | [] => [x]
  | y :: ys => if x ≤ y then x :: y :: ys else y :: insertSorted x ys

/-- Python `list.sort()` on strings (stable ascending sort). -/
def sortStrings : List String → List String
  | [] => []
  | x :: xs => insertSorted x (sortStrings xs)

/-- A Python `datetime`: `aware` is the absolute instant compared by
`<=` between aware datetimes, `naive` is the result of
`replace(tzinfo=None)` compared against the naive cutoff constant. -/
structure Timestamp where
  aware : Int
  naive : Int
deriving DecidableEq

/-- A step record as built by `extract_steps_with_times`
(`step_corrector.py`, lines 76–81): `start`/`stop` are the parsed
`startDate`/`endDate`, `value` is `int(value)`, `source` the
`sourceName` attribute. -/
structure StepRecord where
  start : Timestamp
  stop : Timestamp
  value : Int
  source : String
deriving DecidableEq

/-- A workout interval as built by `extract_workout_times`
(`step_corrector.py`, lines 37–41). -/
structure WorkoutInterval where
  start : Timestamp
  stop : Timestamp
  wtype : String
deriving DecidableEq

/-- The pairwise overlap condition inside `is_step_during_workout`
(`step_corrector.py`, lines 94–95):
`step_record['start'] <= workout['end'] and step_record['end'] >= workout['start']`.
Aware datetimes compare by absolute instant. -/
def overlaps (step_record : StepRecord) (workout : WorkoutInterval) : Bool :=
  decide (step_record.start.aware ≤ workout.stop.aware) &&
    decide (workout.start.aware ≤ step_record.stop.aware)

/-- `is_step_during_workout` (`step_corrector.py`, lines 90–97): true
iff the record overlaps some workout of the list. -/
def is_step_during_workout (step_record : StepRecord) (workout_times : List WorkoutInterval) : Bool :=
  workout_times.any (fun workout => overlaps step_record workout)

/-- `[w for w in workout_times if 'Cycling' in w['type']]`
(`step_corrector.py`, line 110). -/
def cyclingWorkouts (workout_times : List WorkoutInterval) : List WorkoutInterval :=
  workout_times.filter (fun w => pyIn "Cycling" w.wtype)

/-- `[w for w in workout_times if 'Skating' in w['type']]`
(`step_corrector.py`, line 111). -/
def skatingWorkouts (workout_times : List WorkoutInterval) : List WorkoutInterval :=
  workout_times.filter (fun w => pyIn "Skating" w.wtype)

/-- `[w for w in workout_times if 'Walking' in w['type']]`
(`step_corrector.py`, line 112). -/
def walkingWorkouts (workout_times : List WorkoutInterval) : List WorkoutInterval :=
  workout_times.filter (fun w => pyIn "Walking" w.wtype)

/-- Sum of the `value` fields of a list of step records. -/
def sumVal (l : List StepRecord) : Int :=
  (l.map (fun s => s.value)).sum

/-- The result dictionary of `calculate_corrected_steps`
(`step_corrector.py`, lines 150–158), with the three classified
record lists kept explicitly. -/
structure StepCorrectionResult where
  total_steps : Int
  cycling_steps : Int
  skating_steps : Int
  walking_steps : Int
  corrected_steps : Int
  steps_during_cycling : List StepRecord
  steps_during_skating : List StepRecord
  steps_during_walking : List StepRecord
deriving DecidableEq

/-- Core of `calculate_corrected_steps` (`step_corrector.py`, lines
109–158), parameterised by the already-extracted workout and step
lists (the Python function obtains them from `extract_workout_times`
and `extract_steps_with_times`).  The `if`/`elif`/`elif` dispatch of
lines 126–132 appends each step to the first matching class only; it
is rendered by three filters with the accumulated negative
conditions of the earlier branches. -/
def calculate_corrected_steps (workout_times : List WorkoutInterval)
    (step_records : List StepRecord) : StepCorrectionResult :=
  let cycling_workouts := cyclingWorkouts workout_times
  let skating_workouts := skatingWorkouts workout_times
  let walking_workouts := walkingWorkouts workout_times
  let total_steps := sumVal step_records
  let steps_during_cycling :=
    step_records.filter (fun s => is_step_during_workout s cycling_workouts)
  let steps_during_skating :=
    step_records.filter (fun s =>
      !is_step_during_workout s cycling_workouts &&
        is_step_during_workout s skating_workouts)
  let steps_during_walking :=
    step_records.filter (fun s =>
      !is_step_during_workout s cycling_workouts &&
        !is_step_during_workout s skating_workouts &&
        is_step_during_workout s walking_workouts)
  let cycling_steps := sumVal steps_during_cycling
  let skating_steps := sumVal steps_during_skating
  let walking_steps := sumVal steps_during_walking
  let corrected_steps := total_steps - cycling_steps - skating_steps
  { total_steps := total_steps
    cycling_steps := cycling_steps
    skating_steps := skating_steps
    walking_steps := walking_steps
    corrected_steps := corrected_steps
    steps_during_cycling := steps_during_cycling
    steps_during_skating := steps_during_skating
    steps_during_walking := steps_during_walking }

/-- A raw XML element of the health export, carrying the attributes the
scripts read (`elem.get` returns `none` when the attribute is absent). -/
structure RawRecord where
  tag : String
  rtype : Option String
  startDate : Option String
  endDate : Option String
  value : Option String
  sourceName : Option String
deriving DecidableEq

/-- The per-element body of the loop of `extract_steps_with_times`
(`step_corrector.py`, lines 60–83): the element must be a `Record` of
type `HKQuantityTypeIdentifierStepCount` with truthy
`startDate`/`endDate`/`value` attributes, all three must parse
(`parseDT` models `datetime.strptime(_, '%Y-%m-%d %H:%M:%S %z')`,
`parseI` models `int(_)`; `none` models the caught `ValueError`), and
the naive start must be at or after the cutoff. -/
def stepOfRaw (parseDT : String → Option Timestamp) (parseI : String → Option Int)
    (cutoff : Int) (e : RawRecord) : Option StepRecord :=
  if e.tag = "Record" ∧ e.rtype.getD "Unknown" = "HKQuantityTypeIdentifierStepCount" then
    match e.startDate, e.endDate, e.value with
    | some sd, some ed, some v =>
      if sd ≠ "" ∧ ed ≠ "" ∧ v ≠ "" then
        match parseDT sd, parseDT ed, parseI v with
        | some step_start, some step_end, some n =>
          if cutoff ≤ step_start.naive then
            some { start := step_start, stop := step_end, value := n,
                   source := e.sourceName.getD "Unknown" }
          else none
        | _, _, _ => none
      else none
    | _, _, _ => none
  else none

/-- `extract_steps_with_times` (`step_corrector.py`, lines 50–88) over
an explicit element stream. -/
def extract_steps_with_times (parseDT : String → Option Timestamp)
    (parseI : String → Option Int) (cutoff : Int)
    (elems : List RawRecord) : List StepRecord :=
  elems.filterMap (stepOfRaw parseDT parseI cutoff)

/-- An entry of `HealthDataParser.heart_rate_data`
(`health_analyzer.py`, lines 74–77). -/
structure HRPoint where
  date : String
  value : ℚ
deriving DecidableEq

/-- An entry of `HealthDataParser.step_data`
(`health_analyzer.py`, lines 82–85). -/
structure StepPoint where
  date : String
  value : Int
deriving DecidableEq

/-- An entry of `HealthDataParser.energy_data`
(`health_analyzer.py`, lines 90–94). -/
structure EnergyPoint where
  date : String
  etype : String
  value : ℚ
deriving DecidableEq

/-- The date filter of `_process_record` (`health_analyzer.py`, lines
58–66): the `startDate` attribute must be truthy and its first
space-delimited token must parse as a day (`parseDay` models
`datetime.strptime(_, '%Y-%m-%d')`, day-granularity naive dates as
integers) at or after the cutoff day. -/
def recordDay (parseDay : String → Option Int) (e : RawRecord) : Option Int :=
  match e.startDate with
  | none => none
  | some sd => if sd = "" then none else parseDay (firstToken sd)

/-- The step-count branch of `_process_record` (`health_analyzer.py`,
lines 79–85) over an element stream: the per-type collection
`step_data` after the streaming pass.  `parseI` models `int(_)`. -/
def stepDataOf (parseDay : String → Option Int) (parseI : String → Option Int)
    (cutoffDay : Int) (elems : List RawRecord) : List StepPoint :=
  elems.filterMap fun e =>
    if e.tag = "Record" then
      match recordDay parseDay e with
      | none => none
      | some d =>
        if cutoffDay ≤ d then
          if e.rtype.getD "Unknown" = "HKQuantityTypeIdentifierStepCount" then
            match e.value with
            | some v =>
              if v = "" then none
              else (parseI v).map (fun n => ({ date := e.startDate.getD "", value := n } : StepPoint))
            | none => none
          else none
        else none
    else none

/-- The heart-rate branch of `_process_record` (`health_analyzer.py`,
lines 71–77): the collection `heart_rate_data`.  `parseF` models
`float(_)`. -/
def heartRateDataOf (parseDay : String → Option Int) (parseF : String → Option ℚ)
    (cutoffDay : Int) (elems : List RawRecord) : List HRPoint :=
  elems.filterMap fun e =>
    if e.tag = "Record" then
      match recordDay parseDay e with
      | none => none
      | some d =>
        if cutoffDay ≤ d then
          if e.rtype.getD "Unknown" = "HKQuantityTypeIdentifierHeartRate" then
            match e.value with
            | some v =>
              if v = "" then none
              else (parseF v).map (fun q => ({ date := e.startDate.getD "", value := q } : HRPoint))
            | none => none
          else none
        else none
    else none

/-- The energy branch of `_process_record` (`health_analyzer.py`,
lines 87–94): the collection `energy_data`. -/
def energyDataOf (parseDay : String → Option Int) (parseF : String → Option ℚ)
    (cutoffDay : Int) (elems : List RawRecord) : List EnergyPoint :=
  elems.filterMap fun e =>
    if e.tag = "Record" then
      match recordDay parseDay e with
      | none => none
      | some d =>
        if cutoffDay ≤ d then
          if e.rtype.getD "Unknown" = "HKQuantityTypeIdentifierActiveEnergyBurned" ∨
              e.rtype.getD "Unknown" = "HKQuantityTypeIdentifierBasalEnergyBurned" then
            match e.value with
            | some v =>
              if v = "" then none
              else (parseF v).map (fun q =>
                ({ date := e.startDate.getD "", etype := e.rtype.getD "Unknown", value := q } : EnergyPoint))
            | none => none
          else none
        else none
    else none

/-- A workout dictionary as built by `_process_workout`
(`health_analyzer.py`, lines 109–116); the nested statistics blocks
are not read by any aggregate reporter and are omitted. -/
structure WorkoutInfo where
  wtype : String
  start_date : String
  end_date : Option String
  duration : Option String
  duration_unit : Option String
  source : Option String
deriving DecidableEq

/-- Minimum of a Python list given as head and tail (`min(values)`). -/
def foldMin (x : ℚ) (xs : List ℚ) : ℚ :=
  xs.foldl min x

/-- Maximum of a Python list given as head and tail (`max(values)`). -/
def foldMax (x : ℚ) (xs : List ℚ) : ℚ :=
  xs.foldl max x

/-- Minimum of a nonempty list of ints. -/
def foldMinI (x : Int) (xs : List Int) : Int :=
  xs.foldl min x

/-- Maximum of a nonempty list of ints. -/
def foldMaxI (x : Int) (xs : List Int) : Int :=
  xs.foldl max x

/-- Result of `_analyze_heart_rate` (`health_analyzer.py`, lines
153–165); `none` is the `{'message': 'No heart rate data found'}`
no-data marker. -/
structure HeartRateSummary where
  total_readings : Nat
  average : ℚ
  min : ℚ
  max : ℚ
  recent_readings : List HRPoint
deriving DecidableEq

/-- `_analyze_heart_rate` (`health_analyzer.py`, lines 153–165). -/
def analyze_heart_rate (data : List HRPoint) : Option HeartRateSummary :=
  match data with
  | [] => none
  | h0 :: rest =>
    let values := (h0 :: rest).map (fun hr => hr.value)
    some { total_readings := values.length
           average := values.sum / (values.length : ℚ)
           min := foldMin h0.value (rest.map (fun hr => hr.value))
           max := foldMax h0.value (rest.map (fun hr => hr.value))
           recent_readings := lastN 10 (h0 :: rest) }

/-- `daily_steps` of `_analyze_steps` (`health_analyzer.py`, lines
173–176): a `defaultdict(int)` keyed by the date part of each entry. -/
def dailyStepsOf (data : List StepPoint) : List (String × Int) :=
  data.foldl (fun acc s => updateAssoc (fun v => v + s.value) 0 acc (firstToken s.date)) []

/-- Result of `_analyze_steps` (`health_analyzer.py`, lines 167–186). -/
structure StepSummary where
  total_days : Nat
  total_steps : Int
  average_daily : ℚ
  max_daily : Int
  min_daily : Int
  daily_breakdown : List (String × Int)
deriving DecidableEq

/-- `_analyze_steps` (`health_analyzer.py`, lines 167–186); `none` is
the no-data marker.  The inner `[]` branch is unreachable: grouping a
nonempty list yields a nonempty dictionary. -/
def analyze_steps (data : List StepPoint) : Option StepSummary :=
  match data with
  | [] => none
  | s0 :: rest =>
    match dailyStepsOf (s0 :: rest) with
    | [] => none
    | d0 :: ds =>
      let values := (d0 :: ds).map (fun p => p.2)
      some { total_days := (d0 :: ds).length
             total_steps := values.sum
             average_daily := (values.sum : ℚ) / (values.length : ℚ)
             max_daily := foldMaxI d0.2 (ds.map (fun p => p.2))
             min_daily := foldMinI d0.2 (ds.map (fun p => p.2))
             daily_breakdown := d0 :: ds }

/-- One of the `active_energy`/`basal_energy` blocks of
`_analyze_energy` (`health_analyzer.py`, lines 198–212). -/
structure EnergyStats where
  total : ℚ
  average : ℚ
  max : ℚ
deriving DecidableEq

/-- The guarded per-class statistics of `_analyze_energy`: `none` when
the class's filtered list is empty (the block is then absent from the
result). -/
def energyStatsOf (l : List EnergyPoint) : Option EnergyStats :=
  match l with
  | [] => none
  | e0 :: rest =>
    let values := (e0 :: rest).map (fun e => e.value)
    some { total := values.sum
           average := values.sum / (values.length : ℚ)
           max := foldMax e0.value (rest.map (fun e => e.value)) }

/-- Result of `_analyze_energy` (`health_analyzer.py`, lines 188–214);
`none` is the no-data marker for an empty `energy_data`. -/
structure EnergySummary where
  active_energy : Option EnergyStats
  basal_energy : Option EnergyStats
deriving DecidableEq

/-- `_analyze_energy` (`health_analyzer.py`, lines 188–214). -/
def analyze_energy (data : List EnergyPoint) : Option EnergySummary :=
  match data with
  | [] => none
  | e0 :: rest =>
    some { active_energy :=
             energyStatsOf ((e0 :: rest).filter (fun e => pyIn "ActiveEnergy" e.etype))
           basal_energy :=
             energyStatsOf ((e0 :: rest).filter (fun e => pyIn "BasalEnergy" e.etype)) }

/-- The per-workout contribution to `total_duration` in
`_analyze_workouts` (`health_analyzer.py`, lines 224–229): a truthy
`duration` attribute that parses as a float contributes its value,
everything else contributes `0`.  `parseF` models `float(_)`. -/
def durContrib (parseF : String → Option ℚ) (w : WorkoutInfo) : ℚ :=
  match w.duration with
  | none => 0
  | some s => if s = "" then 0 else (parseF s).getD 0

/-- `total_duration` of `_analyze_workouts`. -/
def totalDuration (parseF : String → Option ℚ) (ws : List WorkoutInfo) : ℚ :=
  (ws.map (durContrib parseF)).sum

/-- `Counter(w['type'] for w in self.workouts)`
(`health_analyzer.py`, line 221). -/
def workoutTypesOf (ws : List WorkoutInfo) : List (String × Nat) :=
  ws.foldl (fun acc w => updateAssoc (fun n => n + 1) 0 acc w.wtype) []

/-- Result of `_analyze_workouts` (`health_analyzer.py`, lines
231–237). -/
structure WorkoutSummary where
  total_workouts : Nat
  workout_types : List (String × Nat)
  total_duration_minutes : ℚ
  average_duration : ℚ
  recent_workouts : List WorkoutInfo
deriving DecidableEq

/-- `_analyze_workouts` (`health_analyzer.py`, lines 216–237); `none`
is the no-data marker for an empty workout list. -/
def analyze_workouts (parseF : String → Option ℚ) (ws : List WorkoutInfo) : Option WorkoutSummary :=
  match ws with
  | [] => none
  | w0 :: rest =>
    some { total_workouts := (w0 :: rest).length
           workout_types := workoutTypesOf (w0 :: rest)
           total_duration_minutes := totalDuration parseF (w0 :: rest)
           average_duration := totalDuration parseF (w0 :: rest) / (((w0 :: rest).length : ℚ))
           recent_workouts := lastN 5 (w0 :: rest) }

/-- A track point as built by `_analyze_single_gpx`
(`gpx_analyzer.py`, lines 75–80): elevation and time child elements
are optional (`None` when absent). -/
structure TrackPoint where
  lat : ℚ
  lon : ℚ
  ele : Option ℚ
  time : Option String
deriving DecidableEq

/-- The contribution of one consecutive pair of points in
`_calculate_elevation_gain` (`gpx_analyzer.py`, lines 151–158): the
positive elevation difference when both elevations are present,
otherwise `0`. -/
def pairGain (p q : TrackPoint) : ℚ :=
  match p.ele, q.ele with
  | some ele1, some ele2 => if 0 < ele2 - ele1 then ele2 - ele1 else 0
  | _, _ => 0

/-- `_calculate_elevation_gain` (`gpx_analyzer.py`, lines 144–160). -/
def calculate_elevation_gain : List TrackPoint → ℚ
  | [] => 0
  | [_] => 0
  | p :: q :: rest => pairGain p q + calculate_elevation_gain (q :: rest)

/-- The specification's formula for elevation gain: the sum over
consecutive pairs of `max(0, ele[i+1] - ele[i])`, pairs with a
missing elevation contributing `0`. -/
def specElevationGain (points : List TrackPoint) : ℚ :=
  ((points.zip points.tail).map (fun pr =>
    match pr.1.ele, pr.2.ele with
    | some a, some b => max 0 (b - a)
    | _, _ => 0)).sum

/-- Decidable test that the elevation sequence is non-increasing:
every consecutive pair with both elevations present descends (or
stays level). -/
def nonIncreasingEle (points : List TrackPoint) : Bool :=
  (points.zip points.tail).all (fun pr =>
    match pr.1.ele, pr.2.ele with
    | some a, some b => decide (b ≤ a)
    | _, _ => true)

/-- The truthy `time` strings of a point list in order
(`if point['time']:` — `None` and `""` are falsy), used by
`_calculate_duration` (`gpx_analyzer.py`, lines 171–175) to find the
first and last timestamped points. -/
def truthyTimes (points : List TrackPoint) : List String :=
  points.filterMap (fun p =>
    match p.time with
    | none => none
    | some s => if s = "" then none else some s)

/-- `_calculate_duration` (`gpx_analyzer.py`, lines 162–186).
`parseT` models `datetime.fromisoformat(s.replace('Z', '+00:00'))`,
returning the instant in seconds, `none` on `ValueError`.  The
result is `(end - start) / 60` minutes. -/
def calculate_duration (parseT : String → Option ℚ) (points : List TrackPoint) : ℚ :=
  if points.length < 2 then 0
  else
    match truthyTimes points with
    | [] => 0
    | t0 :: ts =>
      match parseT t0, parseT (ts.getLastD t0) with
      | some start_dt, some end_dt => (end_dt - start_dt) / 60
      | _, _ => 0

/-- A route dictionary as built by `_analyze_single_gpx`
(`gpx_analyzer.py`, lines 91–107); the start/end coordinates are not
read by the summary and are omitted. -/
structure RouteInfo where
  filename : String
  date : String
  track_points : Nat
  distance_km : ℚ
  elevation_gain_m : ℚ
  duration_minutes : ℚ
deriving DecidableEq

/-- One bucket of the `monthly_stats` defaultdict of
`generate_summary` (`gpx_analyzer.py`, lines 200–212). -/
structure MonthStat where
  routes : Nat
  distance : ℚ
  elevation : ℚ
  duration : ℚ
deriving DecidableEq

/-- Adding one route to a monthly bucket (`gpx_analyzer.py`, lines
209–212). -/
def bumpMonth (r : RouteInfo) (m : MonthStat) : MonthStat :=
  { routes := m.routes + 1
    distance := m.distance + r.distance_km
    elevation := m.elevation + r.elevation_gain_m
    duration := m.duration + r.duration_minutes }

/-- `monthly_stats` of `generate_summary`, keyed by `route['date'][:7]`. -/
def monthlyStats (routes : List RouteInfo) : List (String × MonthStat) :=
  routes.foldl (fun acc r =>
    updateAssoc (bumpMonth r) { routes := 0, distance := 0, elevation := 0, duration := 0 }
      acc (r.date.take 7)) []

/-- Result of `GPXAnalyzer.generate_summary` (`gpx_analyzer.py`, lines
214–226); `none` is the `{'message': 'No routes found ...'}` marker. -/
structure GPXSummary where
  total_routes : Nat
  total_distance_km : ℚ
  total_elevation_gain_m : ℚ
  total_duration_minutes : ℚ
  total_track_points : Nat
  average_distance_per_route : ℚ
  average_elevation_per_route : ℚ
  average_duration_per_route : ℚ
  monthly_breakdown : List (String × MonthStat)
  routes : List RouteInfo
deriving DecidableEq

/-- `GPXAnalyzer.generate_summary` (`gpx_analyzer.py`, lines 188–228). -/
def generate_summary (routes : List RouteInfo) : Option GPXSummary :=
  match routes with
  | [] => none
  | r0 :: rest =>
    let rs := r0 :: rest
    some { total_routes := rs.length
           total_distance_km := (rs.map (fun r => r.distance_km)).sum
           total_elevation_gain_m := (rs.map (fun r => r.elevation_gain_m)).sum
           total_duration_minutes := (rs.map (fun r => r.duration_minutes)).sum
           total_track_points := (rs.map (fun r => r.track_points)).sum
           average_distance_per_route := (rs.map (fun r => r.distance_km)).sum / (rs.length : ℚ)
           average_elevation_per_route := (rs.map (fun r => r.elevation_gain_m)).sum / (rs.length : ℚ)
           average_duration_per_route := (rs.map (fun r => r.duration_minutes)).sum / (rs.length : ℚ)
           monthly_breakdown := monthlyStats rs
           routes := rs }

/-- `gpx_file.split('_')[1]` (`gpx_analyzer.py`, line 41); `none`
models the caught `IndexError` when the name has no second token. -/
def gpxFileDate (gpx_file : String) : Option String :=
  (pySplit '_' gpx_file).get? 1

/-- Outcome of the per-file loop of `analyze_gpx_files`
(`gpx_analyzer.py`, lines 35–52): the collected `routes`, the files
actually opened (those passed to `_analyze_single_gpx`), and the
files reported by the `Could not parse date` diagnostic. -/
structure GpxBatchResult where
  routes : List RouteInfo
  opened : List String
  diagnostics : List String
deriving DecidableEq

/-- The per-file loop of `analyze_gpx_files` (`gpx_analyzer.py`, lines
35–52).  `parseDate` models `datetime.strptime(_, '%Y-%m-%d')` on the
date token (`none` = caught `ValueError`); `analyze` is the
`_analyze_single_gpx` oracle (`none` = no usable route, the file was
still opened). -/
def analyzeGpxLoop (parseDate : String → Option Int) (analyze : String → Option RouteInfo)
    (cutoff : Int) : List String → GpxBatchResult
  | [] => { routes := [], opened := [], diagnostics := [] }
  | f :: rest =>
    let r := analyzeGpxLoop parseDate analyze cutoff rest
    match gpxFileDate f with
    | none => { routes := r.routes, opened := r.opened, diagnostics := f :: r.diagnostics }
    | some tok =>
      match parseDate tok with
      | none => { routes := r.routes, opened := r.opened, diagnostics := f :: r.diagnostics }
      | some d =>
        if cutoff ≤ d then
          match analyze f with
          | some info =>
            { routes := info :: r.routes, opened := f :: r.opened, diagnostics := r.diagnostics }
          | none => { routes := r.routes, opened := f :: r.opened, diagnostics := r.diagnostics }
        else r

/-- `analyze_gpx_files` (`gpx_analyzer.py`, lines 21–54) over an
explicit directory listing: keep the `.gpx` names, sort them, then
run the per-file loop. -/
def analyze_gpx_files (parseDate : String → Option Int) (analyze : String → Option RouteInfo)
    (cutoff : Int) (listing : List String) : GpxBatchResult :=
  analyzeGpxLoop parseDate analyze cutoff
    (sortStrings (listing.filter (fun f => pyEndsWith ".gpx" f)))

/-- The specification's numerator for the average workout duration:
the sum of the durations of only those workouts whose `duration`
attribute is present, truthy and parses as a number. -/
def parsedDurationSum (parseF : String → Option ℚ) (ws : List WorkoutInfo) : ℚ :=
  (ws.filterMap (fun w =>
    match w.duration with
    | none => none
    | some s => if s = "" then none else parseF s)).sum

@[simp]
theorem sumVal_nil : sumVal [] = 0 := rfl

@[simp]
theorem sumVal_cons (s : StepRecord) (l : List StepRecord) :
    sumVal (s :: l) = s.value + sumVal l := by
  simp [sumVal]

/-- The three `if`/`elif`/`elif` classes absorb each record at most
once, so the classified sums are bounded by the total when all values
are non-negative. -/
theorem classifySum_le (a b c : StepRecord → Bool) (l : List StepRecord)
    (h : ∀ s ∈ l, 0 ≤ s.value) :
    sumVal (l.filter a)
      + sumVal (l.filter (fun s => !a s && b s))
      + sumVal (l.filter (fun s => !a s && !b s && c s)) ≤ sumVal l := by
  induction l with
  | nil => simp
  | cons s t ih =>
    have hs : 0 ≤ s.value := h s (List.mem_cons_self s t)
    have ht := ih (fun x hx => h x (List.mem_cons_of_mem s hx))
    by_cases ha : a s = true <;> by_cases hb : b s = true <;> by_cases hc : c s = true <;>
      simp [List.filter_cons, ha, hb, hc] <;> omega

/-- Every classified record comes from the input record list. -/
theorem classified_mem_input (workout_times : List WorkoutInterval)
    (step_records : List StepRecord) (s : StepRecord)
    (hs : s ∈ (calculate_corrected_steps workout_times step_records).steps_during_cycling
      ∨ s ∈ (calculate_corrected_steps workout_times step_records).steps_during_skating
      ∨ s ∈ (calculate_corrected_steps workout_times step_records).steps_during_walking) :
    s ∈ step_records := by
  rcases hs with hs | hs | hs <;>
    simp only [calculate_corrected_steps, List.mem_filter] at hs <;> exact hs.1

/-- C1: for every list of workout intervals and every list of step
records, the step-correction result satisfies
`corrected_steps + cycling_steps + skating_steps = total_steps`,
where `total_steps` is the sum of all step record values and
`cycling_steps`/`skating_steps` are the sums of the values attributed
to those classes. -/
theorem corrected_steps_balance (workout_times : List WorkoutInterval)
    (step_records : List StepRecord) :
    (calculate_corrected_steps workout_times step_records).corrected_steps
        + (calculate_corrected_steps workout_times step_records).cycling_steps
        + (calculate_corrected_steps workout_times step_records).skating_steps
      = (calculate_corrected_steps workout_times step_records).total_steps
    ∧ (calculate_corrected_steps workout_times step_records).total_steps
      = sumVal step_records
    ∧ (calculate_corrected_steps workout_times step_records).cycling_steps
      = sumVal (calculate_corrected_steps workout_times step_records).steps_during_cycling
    ∧ (calculate_corrected_steps workout_times step_records).skating_steps
      = sumVal (calculate_corrected_steps workout_times step_records).steps_during_skating := by
  refine ⟨?_, rfl, rfl, rfl⟩
  simp only [calculate_corrected_steps]
  ring

/-- C3: the overlap test between a step record and a workout interval
returns true iff `step.start <= workout.end` and
`step.end >= workout.start` (the list form reduces to the pairwise
test on a singleton list); in particular a record that merely touches
the workout boundary (`step.start = workout.end`) still counts as
overlapping. -/
theorem overlap_test_characterization (s : StepRecord) (w : WorkoutInterval) :
    (overlaps s w = true ↔
      (s.start.aware ≤ w.stop.aware ∧ w.start.aware ≤ s.stop.aware))
    ∧ is_step_during_workout s [w] = overlaps s w
    ∧ (s.start.aware = w.stop.aware → w.start.aware ≤ s.stop.aware →
        overlaps s w = true) := by
  refine ⟨by simp [overlaps], by simp [is_step_during_workout], ?_⟩
  intro h1 h2
  simp [overlaps, h1.le, h2]

theorem overlap_test_characterization_witness :
    overlaps ⟨⟨5, 5⟩, ⟨9, 9⟩, 3, "src"⟩ ⟨⟨1, 1⟩, ⟨5, 5⟩, "HKWorkoutActivityTypeCycling"⟩ = true :=
  (overlap_test_characterization ⟨⟨5, 5⟩, ⟨9, 9⟩, 3, "src"⟩
    ⟨⟨1, 1⟩, ⟨5, 5⟩, "HKWorkoutActivityTypeCycling"⟩).2.2 rfl (by decide)

/-- C2: a step record overlapping at least one cycling workout and at
least one skating workout is placed in the cycling class and in
neither the skating nor the walking class (first-match priority). -/
theorem cycling_priority_over_skating (workout_times : List WorkoutInterval)
    (step_records : List StepRecord) (s : StepRecord)
    (hmem : s ∈ step_records)
    (hcyc : is_step_during_workout s (cyclingWorkouts workout_times) = true)
    (hska : is_step_during_workout s (skatingWorkouts workout_times) = true) :
    s ∈ (calculate_corrected_steps workout_times step_records).steps_during_cycling
    ∧ s ∉ (calculate_corrected_steps workout_times step_records).steps_during_skating
    ∧ s ∉ (calculate_corrected_steps workout_times step_records).steps_during_walking := by
  have hska2 := hska
  clear hska2
  simp [calculate_corrected_steps, List.mem_filter, hmem, hcyc]

theorem cycling_priority_over_skating_witness :
    (⟨⟨1, 1⟩, ⟨2, 2⟩, 5, "x"⟩ : StepRecord) ∈
        (calculate_corrected_steps
          [⟨⟨0, 0⟩, ⟨10, 10⟩, "HKWorkoutActivityTypeCycling"⟩,
           ⟨⟨0, 0⟩, ⟨10, 10⟩, "HKWorkoutActivityTypeSkatingSports"⟩]
          [⟨⟨1, 1⟩, ⟨2, 2⟩, 5, "x"⟩]).steps_during_cycling
    ∧ (⟨⟨1, 1⟩, ⟨2, 2⟩, 5, "x"⟩ : StepRecord) ∉
        (calculate_corrected_steps
          [⟨⟨0, 0⟩, ⟨10, 10⟩, "HKWorkoutActivityTypeCycling"⟩,
           ⟨⟨0, 0⟩, ⟨10, 10⟩, "HKWorkoutActivityTypeSkatingSports"⟩]
          [⟨⟨1, 1⟩, ⟨2, 2⟩, 5, "x"⟩]).steps_during_skating
    ∧ (⟨⟨1, 1⟩, ⟨2, 2⟩, 5, "x"⟩ : StepRecord) ∉
        (calculate_corrected_steps
          [⟨⟨0, 0⟩, ⟨10, 10⟩, "HKWorkoutActivityTypeCycling"⟩,
           ⟨⟨0, 0⟩, ⟨10, 10⟩, "HKWorkoutActivityTypeSkatingSports"⟩]
          [⟨⟨1, 1⟩, ⟨2, 2⟩, 5, "x"⟩]).steps_during_walking :=
  cycling_priority_over_skating _ _ _ (by decide) (by decide) (by decide)

/-- C9: each step record lands in at most one of the three classified
collections (they are pairwise disjoint), and when all step values
are non-negative the classified sums are bounded by the total and the
corrected count dominates the walking count. -/
theorem classification_disjoint_and_bounds (workout_times : List WorkoutInterval)
    (step_records : List StepRecord) :
    (∀ s : StepRecord,
        ¬(s ∈ (calculate_corrected_steps workout_times step_records).steps_during_cycling
          ∧ s ∈ (calculate_corrected_steps workout_times step_records).steps_during_skating)
      ∧ ¬(s ∈ (calculate_corrected_steps workout_times step_records).steps_during_cycling
          ∧ s ∈ (calculate_corrected_steps workout_times step_records).steps_during_walking)
      ∧ ¬(s ∈ (calculate_corrected_steps workout_times step_records).steps_during_skating
          ∧ s ∈ (calculate_corrected_steps workout_times step_records).steps_during_walking))
    ∧ ((∀ s ∈ step_records, 0 ≤ s.value) →
        (calculate_corrected_steps workout_times step_records).cycling_steps
            + (calculate_corrected_steps workout_times step_records).skating_steps
            + (calculate_corrected_steps workout_times step_records).walking_steps
          ≤ (calculate_corrected_steps workout_times step_records).total_steps
        ∧ (calculate_corrected_steps workout_times step_records).walking_steps
          ≤ (calculate_corrected_steps workout_times step_records).corrected_steps) := by
  constructor
  · intro s
    refine ⟨?_, ?_, ?_⟩ <;>
      · rintro ⟨h1, h2⟩
        simp only [calculate_corrected_steps, List.mem_filter, Bool.and_eq_true,
          Bool.not_eq_true'] at h1 h2
        simp_all
  · intro h
    have key := classifySum_le
      (fun s => is_step_during_workout s (cyclingWorkouts workout_times))
      (fun s => is_step_during_workout s (skatingWorkouts workout_times))
      (fun s => is_step_during_workout s (walkingWorkouts workout_times))
      step_records h
    constructor
    · simpa only [calculate_corrected_steps] using key
    · simp only [calculate_corrected_steps] at key ⊢
      omega

theorem classification_disjoint_and_bounds_witness :
    (calculate_corrected_steps [⟨⟨0, 0⟩, ⟨10, 10⟩, "HKWorkoutActivityTypeCycling"⟩]
          [⟨⟨1, 1⟩, ⟨2, 2⟩, 5, "x"⟩, ⟨⟨20, 20⟩, ⟨21, 21⟩, 7, "x"⟩]).cycling_steps
        + (calculate_corrected_steps [⟨⟨0, 0⟩, ⟨10, 10⟩, "HKWorkoutActivityTypeCycling"⟩]
          [⟨⟨1, 1⟩, ⟨2, 2⟩, 5, "x"⟩, ⟨⟨20, 20⟩, ⟨21, 21⟩, 7, "x"⟩]).skating_steps
        + (calculate_corrected_steps [⟨⟨0, 0⟩, ⟨10, 10⟩, "HKWorkoutActivityTypeCycling"⟩]
          [⟨⟨1, 1⟩, ⟨2, 2⟩, 5, "x"⟩, ⟨⟨20, 20⟩, ⟨21, 21⟩, 7, "x"⟩]).walking_steps
      ≤ (calculate_corrected_steps [⟨⟨0, 0⟩, ⟨10, 10⟩, "HKWorkoutActivityTypeCycling"⟩]
          [⟨⟨1, 1⟩, ⟨2, 2⟩, 5, "x"⟩, ⟨⟨20, 20⟩, ⟨21, 21⟩, 7, "x"⟩]).total_steps
    ∧ (calculate_corrected_steps [⟨⟨0, 0⟩, ⟨10, 10⟩, "HKWorkoutActivityTypeCycling"⟩]
          [⟨⟨1, 1⟩, ⟨2, 2⟩, 5, "x"⟩, ⟨⟨20, 20⟩, ⟨21, 21⟩, 7, "x"⟩]).walking_steps
      ≤ (calculate_corrected_steps [⟨⟨0, 0⟩, ⟨10, 10⟩, "HKWorkoutActivityTypeCycling"⟩]
          [⟨⟨1, 1⟩, ⟨2, 2⟩, 5, "x"⟩, ⟨⟨20, 20⟩, ⟨21, 21⟩, 7, "x"⟩]).corrected_steps :=
  (classification_disjoint_and_bounds [⟨⟨0, 0⟩, ⟨10, 10⟩, "HKWorkoutActivityTypeCycling"⟩]
    [⟨⟨1, 1⟩, ⟨2, 2⟩, 5, "x"⟩, ⟨⟨20, 20⟩, ⟨21, 21⟩, 7, "x"⟩]).2 (by decide)

/-- A produced step record always sits at or after the cutoff (the
guard of `step_corrector.py`, line 75). -/
theorem stepOfRaw_naive_bound {parseDT : String → Option Timestamp}
    {parseI : String → Option Int} {cutoff : Int} {e : RawRecord} {r : StepRecord}
    (h : stepOfRaw parseDT parseI cutoff e = some r) : cutoff ≤ r.start.naive := by
  unfold stepOfRaw at h
  repeat' split at h
  all_goals try simp_all
  subst h
  assumption

/-- Unpacking a successful date filter of `_process_record`. -/
theorem recordDay_eq_some {parseDay : String → Option Int} {e : RawRecord} {d : Int}
    (h : recordDay parseDay e = some d) :
    ∃ sd, e.startDate = some sd ∧ sd ≠ "" ∧ parseDay (firstToken sd) = some d := by
  cases hsd : e.startDate with
  | none => unfold recordDay at h; rw [hsd] at h; simp at h
  | some sd =>
    unfold recordDay at h
    rw [hsd] at h
    by_cases hemp : sd = ""
    · simp [hemp] at h
    · simp only [hemp, if_false] at h
      exact ⟨sd, rfl, hemp, h⟩

/-- C4: a step record whose start date is before the configured cutoff
never appears in any output collection — the extracted step-record
list of the step corrector, the three classified collections of
`calculate_corrected_steps`, and the `step_data` collection of the
health analyzer all contain only records whose parsed start is at or
after the cutoff — while a raw element that extracts successfully (in
particular one at or after the cutoff) does participate in the
output. -/
theorem cutoff_excludes_early_records
    (parseDT : String → Option Timestamp) (parseI : String → Option Int)
    (parseDay : String → Option Int) (cutoff cutoffDay : Int)
    (elems : List RawRecord) :
    (∀ r ∈ extract_steps_with_times parseDT parseI cutoff elems, cutoff ≤ r.start.naive)
    ∧ (∀ e ∈ elems, ∀ r : StepRecord, stepOfRaw parseDT parseI cutoff e = some r →
        r ∈ extract_steps_with_times parseDT parseI cutoff elems)
    ∧ (∀ p ∈ stepDataOf parseDay parseI cutoffDay elems,
        ∃ d, parseDay (firstToken p.date) = some d ∧ cutoffDay ≤ d)
    ∧ (∀ workout_times : List WorkoutInterval, ∀ s : StepRecord,
        (s ∈ (calculate_corrected_steps workout_times
                (extract_steps_with_times parseDT parseI cutoff elems)).steps_during_cycling
          ∨ s ∈ (calculate_corrected_steps workout_times
                (extract_steps_with_times parseDT parseI cutoff elems)).steps_during_skating
          ∨ s ∈ (calculate_corrected_steps workout_times
                (extract_steps_with_times parseDT parseI cutoff elems)).steps_during_walking) →
        cutoff ≤ s.start.naive) := by
  have hmain : ∀ r ∈ extract_steps_with_times parseDT parseI cutoff elems,
      cutoff ≤ r.start.naive := by
    intro r hr
    rw [extract_steps_with_times, List.mem_filterMap] at hr
    obtain ⟨e, _, hsome⟩ := hr
    exact stepOfRaw_naive_bound hsome
  refine ⟨hmain, ?_, ?_, ?_⟩
  · intro e he r hsome
    rw [extract_steps_with_times, List.mem_filterMap]
    exact ⟨e, he, hsome⟩
  · intro p hp
    rw [stepDataOf, List.mem_filterMap] at hp
    obtain ⟨e, _, hsome⟩ := hp
    split at hsome
    · split at hsome
      · simp at hsome
      · rename_i d hd
        split at hsome
        · rename_i hcut
          split at hsome
          · split at hsome
            · rename_i v hv
              split at hsome
              · simp at hsome
              · rename_i hvemp
                obtain ⟨n, hn, hpn⟩ := Option.map_eq_some'.mp hsome
                obtain ⟨sd, hsd, hsdemp, hday⟩ := recordDay_eq_some hd
                refine ⟨d, ?_, hcut⟩
                have hdate : p.date = sd := by
                  rw [← hpn]
                  simp [hsd]
                rw [hdate]
                exact hday
            · simp at hsome
          · simp at hsome
        · simp at hsome
    · simp at hsome
  · intro workout_times s hs
    exact hmain s (classified_mem_input workout_times _ s hs)

theorem cutoff_excludes_early_records_witness :
    (50 : Int) ≤ (StepRecord.mk ⟨100, 95⟩ ⟨100, 95⟩ 7 "Unknown").start.naive :=
  (cutoff_excludes_early_records (fun _ => some ⟨100, 95⟩) (fun _ => some 7)
    (fun _ => some 0) 50 0
    [⟨"Record", some "HKQuantityTypeIdentifierStepCount", some "a", some "b", some "7", none⟩]).1
    ⟨⟨100, 95⟩, ⟨100, 95⟩, 7, "Unknown"⟩ (by decide)

/-- The source's positive-delta conditional is the spec's `max 0`. -/
theorem pairGain_eq_max (p q : TrackPoint) :
    pairGain p q = (match p.ele, q.ele with
      | some a, some b => max 0 (b - a)
      | _, _ => 0) := by
  unfold pairGain
  rcases hp : p.ele with _ | a <;> rcases hq : q.ele with _ | b <;> simp [hp, hq]
  rcases le_or_lt b a with h | h
  · rw [if_neg (not_lt.mpr h)]
    exact (max_eq_left (show b - a ≤ 0 by linarith)).symm
  · rw [if_pos h]
    exact (max_eq_right (show (0 : ℚ) ≤ b - a by linarith)).symm

theorem pairGain_nonneg (p q : TrackPoint) : 0 ≤ pairGain p q := by
  rw [pairGain_eq_max]
  rcases hp : p.ele with _ | a <;> rcases hq : q.ele with _ | b <;> simp [hp, hq]

theorem calcElev_eq_spec (points : List TrackPoint) :
    calculate_elevation_gain points = specElevationGain points := by
  induction points with
  | nil => rfl
  | cons p t ih =>
    cases t with
    | nil => rfl
    | cons q rest =>
      rw [calculate_elevation_gain, ih]
      simp only [specElevationGain, List.tail_cons, List.zip_cons_cons, List.map_cons,
        List.sum_cons]
      rw [pairGain_eq_max]

theorem calcElev_nonneg (points : List TrackPoint) :
    0 ≤ calculate_elevation_gain points := by
  induction points with
  | nil => simp [calculate_elevation_gain]
  | cons p t ih =>
    cases t with
    | nil => simp [calculate_elevation_gain]
    | cons q rest =>
      rw [calculate_elevation_gain]
      exact add_nonneg (pairGain_nonneg p q) ih

theorem calcElev_of_nonincreasing (points : List TrackPoint)
    (h : nonIncreasingEle points = true) : calculate_elevation_gain points = 0 := by
  induction points with
  | nil => rfl
  | cons p t ih =>
    cases t with
    | nil => rfl
    | cons q rest =>
      rw [calculate_elevation_gain]
      simp only [nonIncreasingEle, List.tail_cons, List.zip_cons_cons, List.all_cons,
        Bool.and_eq_true] at h
      obtain ⟨h1, h2⟩ := h
      have hrest : calculate_elevation_gain (q :: rest) = 0 := by
        apply ih
        simp only [nonIncreasingEle, List.tail_cons]
        exact h2
      have hpair : pairGain p q = 0 := by
        rw [pairGain_eq_max]
        rcases hp : p.ele with _ | a <;> rcases hq : q.ele with _ | b <;> simp [hp, hq]
        rw [hp, hq] at h1
        simp only [decide_eq_true_eq] at h1
        linarith
      rw [hpair, hrest, add_zero]

/-- C5: elevation gain equals the sum over consecutive pairs of
`max(0, ele[i+1] - ele[i])` restricted to pairs where both elevations
are present (pairs with a missing elevation contribute 0); it is
always non-negative and is 0 whenever the elevation sequence is
non-increasing. -/
theorem elevation_gain_spec (points : List TrackPoint) :
    calculate_elevation_gain points = specElevationGain points
    ∧ 0 ≤ calculate_elevation_gain points
    ∧ (nonIncreasingEle points = true → calculate_elevation_gain points = 0) :=
  ⟨calcElev_eq_spec points, calcElev_nonneg points,
    fun h => calcElev_of_nonincreasing points h⟩

theorem elevation_gain_spec_witness :
    calculate_elevation_gain
      [⟨0, 0, some 9, none⟩, ⟨0, 0, some 7, none⟩, ⟨0, 0, none, none⟩] = 0 :=
  (elevation_gain_spec
    [⟨0, 0, some 9, none⟩, ⟨0, 0, some 7, none⟩, ⟨0, 0, none, none⟩]).2.2 (by decide)

theorem truthyTimes_length_le (points : List TrackPoint) :
    (truthyTimes points).length ≤ points.length :=
  List.length_filterMap_le _ _

/-- C6: the computed duration is the difference in minutes between the
first and the last truthy-timestamped point; it is 0 whenever fewer
than two points carry a timestamp, and 0 when parsing of either of
the two boundary timestamps fails (the `match` collapses to 0 in the
`none` cases). -/
theorem duration_first_last (parseT : String → Option ℚ) (points : List TrackPoint) :
    ((truthyTimes points).length < 2 → calculate_duration parseT points = 0)
    ∧ (∀ t0 ts, truthyTimes points = t0 :: ts →
        calculate_duration parseT points =
          (match parseT t0, parseT (ts.getLastD t0) with
           | some start_dt, some end_dt => (end_dt - start_dt) / 60
           | _, _ => 0)) := by
  constructor
  · intro hlt
    unfold calculate_duration
    by_cases hlen : points.length < 2
    · simp [hlen]
    · simp only [hlen, if_false]
      split
      · rfl
      · rename_i t0 ts heq
        rw [heq] at hlt
        simp only [List.length_cons] at hlt
        have hts : ts = [] := List.eq_nil_of_length_eq_zero (by omega)
        subst hts
        cases hp : parseT t0 <;> simp [hp, List.getLastD]
  · intro t0 ts htt
    unfold calculate_duration
    by_cases hlen : points.length < 2
    · simp only [hlen, if_true]
      have hle := truthyTimes_length_le points
      rw [htt] at hle
      simp only [List.length_cons] at hle
      have hts : ts = [] := List.eq_nil_of_length_eq_zero (by omega)
      subst hts
      cases hp : parseT t0 <;> simp [hp, List.getLastD]
    · simp only [hlen, if_false, htt]

theorem duration_first_last_witness :
    calculate_duration (fun s => if s = "t1" then some 0 else some 600)
      [⟨0, 0, none, some ""⟩, ⟨0, 0, none, some "t1"⟩, ⟨0, 0, none, some "t2"⟩] = 10 := by
  have h := (duration_first_last (fun s => if s = "t1" then some 0 else some 600)
    [⟨0, 0, none, some ""⟩, ⟨0, 0, none, some "t1"⟩, ⟨0, 0, none, some "t2"⟩]).2
    "t1" ["t2"] (by decide)
  rw [h]
  norm_num [List.getLastD]
  rw [if_neg (show ¬("t2" : String) = "t1" by decide)]
  norm_num

theorem updateAssoc_ne_nil {β : Type} (f : β → β) (d : β) (l : List (String × β))
    (k : String) : updateAssoc f d l k ≠ [] := by
  cases l with
  | nil => simp [updateAssoc]
  | cons hd tl =>
    obtain ⟨k0, v⟩ := hd
    simp only [updateAssoc]
    split <;> simp

/-- Grouping a nonempty step list by day yields a nonempty dictionary,
so the division in `_analyze_steps` has a positive denominator. -/
theorem dailyStepsOf_ne_nil (s0 : StepPoint) (rest : List StepPoint) :
    dailyStepsOf (s0 :: rest) ≠ [] := by
  have key : ∀ (l : List StepPoint) (acc : List (String × Int)), acc ≠ [] →
      l.foldl (fun acc s => updateAssoc (fun v => v + s.value) 0 acc (firstToken s.date))
        acc ≠ [] := by
    intro l
    induction l with
    | nil => intro acc h; simpa
    | cons x xs ih =>
      intro acc _
      simp only [List.foldl_cons]
      exact ih _ (updateAssoc_ne_nil _ _ _ _)
  unfold dailyStepsOf
  simp only [List.foldl_cons]
  exact key rest _ (updateAssoc_ne_nil _ _ _ _)

/-- C7: each aggregate reporter (heart rate, steps, energy, workouts,
routes) returns the explicit no-data marker (`none`) on an empty input
collection, and on a nonempty input it produces a summary (so the
divisions by the collection's length are guarded by nonemptiness and
never divide by zero). -/
theorem empty_collection_guards :
    (analyze_heart_rate [] = none)
    ∧ (∀ (p : HRPoint) (ps : List HRPoint), (analyze_heart_rate (p :: ps)).isSome = true)
    ∧ (analyze_steps [] = none)
    ∧ (∀ (p : StepPoint) (ps : List StepPoint), (analyze_steps (p :: ps)).isSome = true)
    ∧ (analyze_energy [] = none)
    ∧ (∀ (p : EnergyPoint) (ps : List EnergyPoint), (analyze_energy (p :: ps)).isSome = true)
    ∧ (∀ parseF : String → Option ℚ, analyze_workouts parseF [] = none)
    ∧ (∀ (parseF : String → Option ℚ) (w : WorkoutInfo) (ws : List WorkoutInfo),
        (analyze_workouts parseF (w :: ws)).isSome = true)
    ∧ (generate_summary [] = none)
    ∧ (∀ (r : RouteInfo) (rs : List RouteInfo), (generate_summary (r :: rs)).isSome = true) := by
  refine ⟨rfl, ?_, rfl, ?_, rfl, ?_, fun _ => rfl, ?_, rfl, ?_⟩
  · intro p ps
    simp [analyze_heart_rate]
  · intro p ps
    rw [analyze_steps]
    cases h : dailyStepsOf (p :: ps) with
    | nil => exact absurd h (dailyStepsOf_ne_nil p ps)
    | cons d0 ds => simp
  · intro p ps
    simp [analyze_energy]
  · intro parseF w ws
    simp [analyze_workouts]
  · intro r rs
    simp [generate_summary]

/-- `total_duration` accumulates exactly the parseable durations: a
missing, empty or unparsable `duration` attribute contributes `0`. -/
theorem totalDuration_eq_parsedSum (parseF : String → Option ℚ) (ws : List WorkoutInfo) :
    totalDuration parseF ws = parsedDurationSum parseF ws := by
  induction ws with
  | nil => rfl
  | cons w t ih =>
    simp only [totalDuration, parsedDurationSum, List.map_cons, List.sum_cons,
      List.filterMap_cons] at ih ⊢
    cases hd : w.duration with
    | none => simp [durContrib, hd, ih]
    | some s =>
      by_cases hemp : s = ""
      · simp [durContrib, hd, hemp, ih]
      · cases hp : parseF s with
        | none => simp [durContrib, hd, hemp, hp, ih]
        | some q => simp [durContrib, hd, hemp, hp, ih]

/-- C10: for a nonempty workout list the reported `average_duration`
is the sum of the durations of only those workouts whose `duration`
attribute is present and parses, divided by the count of all
workouts; a workout with a missing or unparsable duration contributes
zero to the numerator yet still enlarges the denominator, strictly
lowering the reported average whenever the parseable total is
positive. -/
theorem average_duration_spec (parseF : String → Option ℚ) :
    (∀ (w : WorkoutInfo) (ws : List WorkoutInfo),
        ∃ s, analyze_workouts parseF (w :: ws) = some s
          ∧ s.total_duration_minutes = parsedDurationSum parseF (w :: ws)
          ∧ s.average_duration = parsedDurationSum parseF (w :: ws) / (((w :: ws).length : ℚ)))
    ∧ (∀ (bad w0 : WorkoutInfo) (ws : List WorkoutInfo) (s1 s2 : WorkoutSummary),
        durContrib parseF bad = 0 →
        0 < parsedDurationSum parseF (w0 :: ws) →
        analyze_workouts parseF (bad :: w0 :: ws) = some s1 →
        analyze_workouts parseF (w0 :: ws) = some s2 →
        s1.average_duration < s2.average_duration) := by
  constructor
  · intro w ws
    refine ⟨_, rfl, ?_, ?_⟩
    · simpa using totalDuration_eq_parsedSum parseF (w :: ws)
    · simp only [analyze_workouts]
      rw [totalDuration_eq_parsedSum]
  · intro bad w0 ws s1 s2 hbad hpos h1 h2
    simp only [analyze_workouts, Option.some.injEq] at h1 h2
    have e1 : s1.average_duration
        = totalDuration parseF (bad :: w0 :: ws) / (((bad :: w0 :: ws).length : ℚ)) := by
      rw [← h1]
    have e2 : s2.average_duration
        = totalDuration parseF (w0 :: ws) / (((w0 :: ws).length : ℚ)) := by
      rw [← h2]
    have hdrop : totalDuration parseF (bad :: w0 :: ws) = totalDuration parseF (w0 :: ws) := by
      simp only [totalDuration, List.map_cons, List.sum_cons] at hbad ⊢
      rw [hbad, zero_add]
    have hT : 0 < totalDuration parseF (w0 :: ws) := by
      rw [totalDuration_eq_parsedSum]
      exact hpos
    rw [e1, e2, hdrop]
    have hn : (0 : ℚ) < ((w0 :: ws).length : ℚ) := by
      simp only [List.length_cons]
      positivity
    have hn2 : ((w0 :: ws).length : ℚ) < ((bad :: w0 :: ws).length : ℚ) := by
      simp only [List.length_cons]
      push_cast
      linarith
    rw [div_lt_div_iff₀ (by linarith) hn]
    nlinarith

theorem average_duration_spec_witness :
    parsedDurationSum (fun _ => some (5 : ℚ))
        [⟨"W", "d", none, none, none, none⟩, ⟨"W", "d", none, some "5", none, none⟩]
        / ((([⟨"W", "d", none, none, none, none⟩,
            ⟨"W", "d", none, some "5", none, none⟩] : List WorkoutInfo)).length : ℚ)
      < parsedDurationSum (fun _ => some (5 : ℚ)) [⟨"W", "d", none, some "5", none, none⟩]
        / ((([⟨"W", "d", none, some "5", none, none⟩] : List WorkoutInfo)).length : ℚ) := by
  obtain ⟨s1, hs1, _, havg1⟩ := (average_duration_spec (fun _ => some (5 : ℚ))).1
    ⟨"W", "d", none, none, none, none⟩ [⟨"W", "d", none, some "5", none, none⟩]
  obtain ⟨s2, hs2, _, havg2⟩ := (average_duration_spec (fun _ => some (5 : ℚ))).1
    ⟨"W", "d", none, some "5", none, none⟩ []
  have h := (average_duration_spec (fun _ => some (5 : ℚ))).2
    ⟨"W", "d", none, none, none, none⟩ ⟨"W", "d", none, some "5", none, none⟩ [] s1 s2
    rfl (by simp [parsedDurationSum, List.filterMap_cons]) hs1 hs2
  rw [havg1, havg2] at h
  exact h

theorem mem_insertSorted (x y : String) (l : List String) :
    y ∈ insertSorted x l ↔ y = x ∨ y ∈ l := by
  induction l with
  | nil => simp [insertSorted]
  | cons z zs ih =>
    simp only [insertSorted]
    split
    · simp
    · simp only [List.mem_cons, ih]
      tauto

theorem mem_sortStrings (y : String) (l : List String) :
    y ∈ sortStrings l ↔ y ∈ l := by
  induction l with
  | nil => simp [sortStrings]
  | cons x xs ih =>
    simp only [sortStrings, mem_insertSorted, ih, List.mem_cons]

/-- Only files whose second underscore token parses to a date at or
after the cutoff are ever opened by the per-file loop. -/
theorem opened_characterization (parseDate : String → Option Int)
    (analyze : String → Option RouteInfo) (cutoff : Int) :
    ∀ (files : List String) (g : String),
      g ∈ (analyzeGpxLoop parseDate analyze cutoff files).opened →
      g ∈ files ∧ ∃ tok d, gpxFileDate g = some tok ∧ parseDate tok = some d ∧ cutoff ≤ d := by
  intro files
  induction files with
  | nil => intro g hg; simp [analyzeGpxLoop] at hg
  | cons f rest ih =>
    intro g hg
    rw [analyzeGpxLoop] at hg
    rcases htok : gpxFileDate f with _ | tok
    · rw [htok] at hg
      dsimp only at hg
      obtain ⟨h1, h2⟩ := ih g hg
      exact ⟨List.mem_cons_of_mem f h1, h2⟩
    · rw [htok] at hg
      dsimp only at hg
      rcases hd : parseDate tok with _ | d
      · rw [hd] at hg
        dsimp only at hg
        obtain ⟨h1, h2⟩ := ih g hg
        exact ⟨List.mem_cons_of_mem f h1, h2⟩
      · rw [hd] at hg
        dsimp only at hg
        by_cases hc : cutoff ≤ d
        · rw [if_pos hc] at hg
          rcases ha : analyze f with _ | info
          · rw [ha] at hg
            dsimp only at hg
            rcases List.mem_cons.mp hg with hgf | hgr
            · subst hgf
              exact ⟨List.mem_cons_self g rest, tok, d, htok, hd, hc⟩
            · obtain ⟨h1, h2⟩ := ih g hgr
              exact ⟨List.mem_cons_of_mem f h1, h2⟩
          · rw [ha] at hg
            dsimp only at hg
            rcases List.mem_cons.mp hg with hgf | hgr
            · subst hgf
              exact ⟨List.mem_cons_self g rest, tok, d, htok, hd, hc⟩
            · obtain ⟨h1, h2⟩ := ih g hgr
              exact ⟨List.mem_cons_of_mem f h1, h2⟩
        · rw [if_neg hc] at hg
          obtain ⟨h1, h2⟩ := ih g hg
          exact ⟨List.mem_cons_of_mem f h1, h2⟩

/-- C8, counterexample to the claim as stated: the claim quantifies
over *every* file in the route directory, but a file whose name does
not end in `.gpx` is filtered out before the loop, so a non-`.gpx`
file with an unparseable date token is skipped silently — no
diagnostic is recorded, contradicting "skipped with a diagnostic
message".  Concretely, `notes.txt` has no second underscore token yet
the batch result over the listing `["notes.txt"]` has an empty
diagnostics list. -/
theorem gpx_batch_nongpx_counterexample :
    gpxFileDate "notes.txt" = none
    ∧ analyze_gpx_files (fun _ => some 0) (fun _ => none) 0 ["notes.txt"]
        = { routes := [], opened := [], diagnostics := [] } :=
  ⟨by decide, by decide⟩

/-- C8, amended to the `.gpx` files the batch iterates over: the date
is the second underscore-delimited token; a file with an unparseable
token (missing token or failing date parse) is recorded in the
diagnostics and the rest of the batch is still processed; a file
whose date is before the cutoff is skipped entirely, without being
opened and without a diagnostic; and every opened file is a `.gpx`
member of the directory listing whose second token parses to a date
at or after the cutoff. -/
theorem gpx_batch_amended (parseDate : String → Option Int)
    (analyze : String → Option RouteInfo) (cutoff : Int) :
    (∀ f rest, gpxFileDate f = none →
        analyzeGpxLoop parseDate analyze cutoff (f :: rest)
          = { routes := (analyzeGpxLoop parseDate analyze cutoff rest).routes,
              opened := (analyzeGpxLoop parseDate analyze cutoff rest).opened,
              diagnostics := f :: (analyzeGpxLoop parseDate analyze cutoff rest).diagnostics })
    ∧ (∀ f rest tok, gpxFileDate f = some tok → parseDate tok = none →
        analyzeGpxLoop parseDate analyze cutoff (f :: rest)
          = { routes := (analyzeGpxLoop parseDate analyze cutoff rest).routes,
              opened := (analyzeGpxLoop parseDate analyze cutoff rest).opened,
              diagnostics := f :: (analyzeGpxLoop parseDate analyze cutoff rest).diagnostics })
    ∧ (∀ f rest tok d, gpxFileDate f = some tok → parseDate tok = some d → d < cutoff →
        analyzeGpxLoop parseDate analyze cutoff (f :: rest)
          = analyzeGpxLoop parseDate analyze cutoff rest)
    ∧ (∀ (listing : List String) (g : String),
        g ∈ (analyze_gpx_files parseDate analyze cutoff listing).opened →
        g ∈ listing ∧ pyEndsWith ".gpx" g = true
          ∧ ∃ tok d, gpxFileDate g = some tok ∧ parseDate tok = some d ∧ cutoff ≤ d) := by
  refine ⟨?_, ?_, ?_, ?_⟩
  · intro f rest htok
    rw [analyzeGpxLoop, htok]
  · intro f rest tok htok hd
    rw [analyzeGpxLoop, htok]
    dsimp only
    rw [hd]
  · intro f rest tok d htok hd hlt
    rw [analyzeGpxLoop, htok]
    dsimp only
    rw [hd]
    dsimp only
    rw [if_neg (not_le.mpr hlt)]
  · intro listing g hg
    rw [analyze_gpx_files] at hg
    obtain ⟨h1, h2⟩ := opened_characterization parseDate analyze cutoff _ g hg
    rw [mem_sortStrings, List.mem_filter] at h1
    exact ⟨h1.1, h1.2, h2⟩

theorem gpx_batch_amended_witness :
    analyzeGpxLoop (fun _ => none) (fun _ => none) 0 ["a_b.gpx"]
      = { routes := [], opened := [], diagnostics := ["a_b.gpx"] } := by
  have h := (gpx_batch_amended (fun _ => none) (fun _ => none) 0).2.1 "a_b.gpx" [] "b.gpx"
    (by decide) rfl
  simpa using h
